import Mathlib

/-!
Shallow embedding of the AppShield privacy-risk core
(`medsecure/nlp_risk.py` and `medsecure/tracker_analysis.py`).

Python strings are sequences of Unicode code points; we embed them as
Lean `String`s and perform the Python string operations (`lower`,
`strip`, `split`, `endswith`, substring `in`) on their `List Char`
code-point sequences, which match Python's semantics directly.
-/

/-- `leadsWith p l` is true iff the char list `l` starts with `p`
(Python `l.startswith(p)` on code-point sequences). -/
def leadsWith : List Char → List Char → Bool
  | [], _ => true
  | _ :: _, [] => false
  | a :: p, b :: l => a == b && leadsWith p l

/-- `hasSub p l` is true iff `p` occurs as a contiguous subsequence of `l`
(Python `p in l` for strings). -/
def hasSub (p : List Char) : List Char → Bool
  | [] => leadsWith p []
  | c :: t => leadsWith p (c :: t) || hasSub p t

/-- Python `s.strip()`: drop whitespace from both ends. -/
def pyStrip (l : List Char) : List Char :=
  ((l.dropWhile Char.isWhitespace).reverse.dropWhile Char.isWhitespace).reverse

/-- Python `s.split(".")[-1]`: the segment after the last dot
(the whole string when no dot occurs). -/
def lastSegment (l : List Char) : List Char :=
  l.foldl (fun acc c => if c == '.' then [] else acc ++ [c]) []

/-- Python `l.endswith(p)` on code-point sequences. -/
def endsWithL (l p : List Char) : Bool := leadsWith p.reverse l.reverse

/-- Python `s.lower()` (per-code-point lowering, enough for the ASCII
keywords used by this program). -/
def pyLower (l : List Char) : List Char := l.map Char.toLower

/-! ## Claim extraction (`nlp_risk.py`) -/

/-- The 9 fixed boolean policy claims (`_keyword_extract_claims` keys). -/
structure ClaimSet where
  mentions_location : Bool
  mentions_contacts : Bool
  mentions_camera : Bool
  mentions_microphone : Bool
  mentions_storage : Bool
  mentions_phone : Bool
  mentions_ads_tracking : Bool
  mentions_third_parties : Bool
  mentions_security : Bool
deriving DecidableEq

/-- `any(word in text for word in words)`. -/
def kwAny (text : List Char) (words : List String) : Bool :=
  words.any (fun w => hasSub w.toList text)

/-- `_keyword_extract_claims` of `nlp_risk.py` (lines 6-18). -/
def keyword_extract_claims (policy_text : String) : ClaimSet :=
  let text := pyLower policy_text.toList
  { mentions_location := kwAny text ["location", "geolocation", "gps", "locational data"],
    mentions_contacts := kwAny text ["contacts", "address book", "contact list"],
    mentions_camera := kwAny text ["camera", "photos", "take pictures", "video recording"],
    mentions_microphone := kwAny text ["microphone", "audio recording", "voice recording"],
    mentions_storage := kwAny text ["storage", "files on your device", "media files", "photos and videos"],
    mentions_phone := kwAny text ["phone number", "call log", "telephony"],
    mentions_ads_tracking := kwAny text ["advertising id", "ads", "ad partners", "personalized ads", "analytics partners"],
    mentions_third_parties := kwAny text ["third parties", "partners", "service providers", "affiliates"],
    mentions_security := kwAny text ["encrypt", "security", "protect your data", "secure", "safeguard"] }

/-- The optional zero-shot classification backend, abstracted: given the
policy text it either fails (initialization failure or runtime exception,
both modelled as `none`) or returns the zipped `labels`/`scores` pairs of
the classifier result. -/
abbrev ZeroShotBackend := String → Option (List (String × ℚ))

/-- Python `{lab: score for lab, score in zip(labels, scores)}.get(s, 0.0)`:
the last binding of a key wins in a dict comprehension. -/
def scoreOf (res : List (String × ℚ)) (lab : String) : ℚ :=
  match res.reverse.find? (fun p => p.1 == lab) with
  | some p => p.2
  | none => 0

/-- `label_true` of `extract_policy_claims`: score threshold 0.35. -/
def labelTrue (res : List (String × ℚ)) (lab : String) : Bool :=
  decide ((35 : ℚ) / 100 ≤ scoreOf res lab)

/-- The zero-shot branch of `extract_policy_claims` (lines 70-80). -/
def zeroShotClaims (res : List (String × ℚ)) : ClaimSet :=
  { mentions_location := labelTrue res "collects location data",
    mentions_contacts := labelTrue res "collects contact data",
    mentions_camera := labelTrue res "collects camera or photos",
    mentions_microphone := labelTrue res "collects microphone or audio",
    mentions_storage := labelTrue res "collects storage or files",
    mentions_phone := labelTrue res "collects phone numbers or call logs",
    mentions_ads_tracking := labelTrue res "uses advertising ids or tracking",
    mentions_third_parties := labelTrue res "shares data with third parties or partners",
    mentions_security := labelTrue res "mentions security or encryption" }

/-- `extract_policy_claims` of `nlp_risk.py` (lines 36-83): short texts go
through the keyword strategy; otherwise the zero-shot backend is attempted
and any failure falls back to the keyword strategy. -/
def extract_policy_claims (backend : ZeroShotBackend) (policy_text : String) : ClaimSet :=
  if policy_text = "" ∨ (pyStrip policy_text.toList).length < 20 then
    keyword_extract_claims policy_text
  else
    match backend policy_text with
    | none => keyword_extract_claims policy_text
    | some res => zeroShotClaims res

/-! ## Permission grouping (`nlp_risk.py` lines 86-121) -/

def locationSuffixes : List String :=
  ["ACCESS_FINE_LOCATION", "ACCESS_COARSE_LOCATION", "ACCESS_BACKGROUND_LOCATION",
   "ACCESS_MEDIA_LOCATION", "ACCESS_WIFI_STATE", "NEARBY_WIFI_DEVICES"]

def contactsSuffixes : List String :=
  ["READ_CONTACTS", "WRITE_CONTACTS", "GET_ACCOUNTS", "READ_PROFILE"]

def cameraSuffixes : List String :=
  ["CAMERA", "CAPTURE_VIDEO_OUTPUT", "FOREGROUND_SERVICE_CAMERA"]

def microphoneSuffixes : List String :=
  ["RECORD_AUDIO", "FOREGROUND_SERVICE_MICROPHONE"]

def storageMediaSuffixes : List String :=
  ["READ_EXTERNAL_STORAGE", "WRITE_EXTERNAL_STORAGE",
   "READ_MEDIA_IMAGES", "READ_MEDIA_VIDEO", "READ_MEDIA_VISUAL_USER_SELECTED",
   "MANAGE_EXTERNAL_STORAGE"]

def phoneSuffixes : List String :=
  ["READ_PHONE_STATE", "READ_PHONE_NUMBERS", "CALL_PHONE",
   "READ_CALL_LOG", "ANSWER_PHONE_CALLS", "MANAGE_OWN_CALLS"]

def adsTrackingSuffixes : List String :=
  ["AD_ID", "ACCESS_ADSERVICES_AD_ID", "ACCESS_ADSERVICES_ATTRIBUTION"]

/-- The suffix lists of `SENSITIVE_PERMISSION_GROUPS`, in dict order. -/
def groupSuffixLists : List (List String) :=
  [locationSuffixes, contactsSuffixes, cameraSuffixes, microphoneSuffixes,
   storageMediaSuffixes, phoneSuffixes, adsTrackingSuffixes]

/-- The `used_groups` mapping: one flag per sensitive permission group,
in the dict order of `SENSITIVE_PERMISSION_GROUPS`. -/
structure UsedGroups where
  location : Bool
  contacts : Bool
  camera : Bool
  microphone : Bool
  storage_media : Bool
  phone : Bool
  ads_tracking : Bool
deriving DecidableEq

/-- `any(suffix == p or suffix.endswith(p) for p in perm_suffixes)` where
`suffix = perm.split(".")[-1]`. -/
def permInGroup (perm : String) (pats : List String) : Bool :=
  let sfx := lastSegment perm.toList
  pats.any (fun p => sfx == p.toList || endsWithL sfx p.toList)

/-- One iteration of the `for perm in permissions` loop of
`group_permissions`: mark every group the permission matches. -/
def groupStep (ug : UsedGroups) (perm : String) : UsedGroups :=
  { location := ug.location || permInGroup perm locationSuffixes,
    contacts := ug.contacts || permInGroup perm contactsSuffixes,
    camera := ug.camera || permInGroup perm cameraSuffixes,
    microphone := ug.microphone || permInGroup perm microphoneSuffixes,
    storage_media := ug.storage_media || permInGroup perm storageMediaSuffixes,
    phone := ug.phone || permInGroup perm phoneSuffixes,
    ads_tracking := ug.ads_tracking || permInGroup perm adsTrackingSuffixes }

/-- `group_permissions` of `nlp_risk.py` (lines 114-121). -/
def group_permissions (permissions : List String) : UsedGroups :=
  permissions.foldl groupStep ⟨false, false, false, false, false, false, false⟩

/-! ## Risk scoring (`nlp_risk.py` lines 123-199) -/

/-- `sum(1 for v in used_groups.values() if v)`. -/
def numGroupsUsed (g : UsedGroups) : ℕ :=
  (if g.location then 1 else 0) + (if g.contacts then 1 else 0) +
  (if g.camera then 1 else 0) + (if g.microphone then 1 else 0) +
  (if g.storage_media then 1 else 0) + (if g.phone then 1 else 0) +
  (if g.ads_tracking then 1 else 0)

/-- The mutable pair (`risk_points`, `reasons`) of `compute_privacy_risk`. -/
structure RiskAcc where
  rp : ℤ
  reasons : List String
deriving DecidableEq

/-- `risk_points += weight; reasons.append(msg)`. -/
def addPenalty (a : RiskAcc) (w : ℤ) (msg : String) : RiskAcc :=
  { rp := a.rp + w, reasons := a.reasons ++ [msg] }

def breadthManyMsg : String :=
  "App uses many categories of sensitive data (high data exposure surface)."

def breadthMultipleMsg : String := "App uses multiple types of sensitive data."

def breadthOneMsg : String := "App accesses at least one type of sensitive data."

/-- The reason text of the local `check` helper. -/
def mismatchMsg (label : String) : String :=
  "App accesses " ++ label ++ ", but the privacy policy does not clearly mention it."

def adsBonusMsg : String :=
  "App uses advertising IDs / tracking, which increases profiling and behavioral targeting risk."

def thirdPartiesMsg : String :=
  "Privacy policy does not clearly describe sharing with third parties or partners."

def securityMsg : String :=
  "Privacy policy does not mention data security or protection measures clearly."

def noConcernsMsg : String :=
  "No major mismatches or privacy concerns detected based on available information."

def insufficientPolicyMsg : String :=
  "No or insufficient privacy policy text available for analysis."

/-- Breadth penalty tiers of `compute_privacy_risk` (lines 142-150). -/
def breadthStep (n : ℕ) (a : RiskAcc) : RiskAcc :=
  if 5 ≤ n then addPenalty a 20 breadthManyMsg
  else if 3 ≤ n then addPenalty a 10 breadthMultipleMsg
  else if 1 ≤ n then addPenalty a 5 breadthOneMsg
  else a

/-- The local `check(group_key, claim_key, label, weight)` helper
(lines 152-156): penalize a used group whose claim is absent. -/
def checkStep (used claimed : Bool) (label : String) (w : ℤ) (a : RiskAcc) : RiskAcc :=
  if used && !claimed then addPenalty a w (mismatchMsg label) else a

/-- An unconditional `if cond: risk_points += w; reasons.append(msg)` step
(lines 166-176). -/
def flagStep (b : Bool) (w : ℤ) (msg : String) (a : RiskAcc) : RiskAcc :=
  if b then addPenalty a w msg else a

/-- The full penalty accumulation of `compute_privacy_risk`
(lines 137-176), in source order. -/
def riskAcc (used_groups : UsedGroups) (claims : ClaimSet) : RiskAcc :=
  let a := breadthStep (numGroupsUsed used_groups) ⟨0, []⟩
  let a := checkStep used_groups.location claims.mentions_location "location data" 10 a
  let a := checkStep used_groups.contacts claims.mentions_contacts "contacts" 10 a
  let a := checkStep used_groups.camera claims.mentions_camera "camera" 10 a
  let a := checkStep used_groups.microphone claims.mentions_microphone "microphone/audio" 10 a
  let a := checkStep used_groups.storage_media claims.mentions_storage "media/storage" 7 a
  let a := checkStep used_groups.phone claims.mentions_phone "phone/call information" 7 a
  let a := checkStep used_groups.ads_tracking claims.mentions_ads_tracking "advertising IDs / tracking" 7 a
  let a := flagStep used_groups.ads_tracking 5 adsBonusMsg a
  let a := flagStep (!claims.mentions_third_parties) 8 thirdPartiesMsg a
  let a := flagStep (!claims.mentions_security) 5 securityMsg a
  a

/-- Level thresholds of `compute_privacy_risk` (lines 183-188). -/
def levelOfScore (score : ℤ) : String :=
  if 75 ≤ score then "LOW" else if 50 ≤ score then "MEDIUM" else "HIGH"

/-- The `Risk Assessment` record returned by `compute_privacy_risk`;
`claims = none` embeds the empty dict of the short-circuit branch. -/
structure RiskResult where
  score : ℤ
  level : String
  reasons : List String
  claims : Option ClaimSet
  used_groups : UsedGroups
deriving DecidableEq

/-- The main (non-short-circuit) branch of `compute_privacy_risk`
(lines 134-199). -/
def mainRisk (backend : ZeroShotBackend) (permissions : List String)
    (policy_text : String) : RiskResult :=
  let claims := extract_policy_claims backend policy_text
  let used_groups := group_permissions permissions
  let a := riskAcc used_groups claims
  let risk_points := if 90 < a.rp then 90 else a.rp
  let score := max 0 (100 - risk_points)
  let level := levelOfScore score
  let reasons := if a.reasons = [] then [noConcernsMsg] else a.reasons
  { score := score, level := level, reasons := reasons,
    claims := some claims, used_groups := used_groups }

/-- `compute_privacy_risk` of `nlp_risk.py` (lines 123-199), with the
claim-extraction backend passed explicitly (the source reads it from a
module-level global). -/
def compute_privacy_risk (backend : ZeroShotBackend) (permissions : List String)
    (policy_text : String) : RiskResult :=
  if policy_text = "" ∨ (pyStrip policy_text.toList).length < 50 then
    { score := 25, level := "HIGH", reasons := [insufficientPolicyMsg],
      claims := none, used_groups := group_permissions permissions }
  else mainRisk backend permissions policy_text

/-! ## Tracker classification (`tracker_analysis.py`) -/

/-- The built-in fallback tracker list of `load_tracker_list`
(lines 27-33), used when the CSV is missing. -/
def FALLBACK_TRACKERS : List (String × String) :=
  [("doubleclick.net", "ads"),
   ("google-analytics.com", "analytics"),
   ("googlesyndication.com", "ads"),
   ("firebaseio.com", "backend"),
   ("facebook.com", "social")]

/-- The inner `for pattern, category in TRACKER_PATTERNS` loop with `break`
(lines 100-105): the first entry whose pattern is a substring of the domain. -/
def firstTrackerMatch (patterns : List (String × String)) (dom : String) :
    Option (String × String) :=
  patterns.find? (fun pc => hasSub pc.1.toList dom.toList)

/-- `category_counts[cat] = category_counts.get(cat, 0) + 1` on an
insertion-ordered dict. -/
def dictIncr : List (String × ℕ) → String → List (String × ℕ)
  | [], cat => [(cat, 1)]
  | (k, v) :: rest, cat =>
    if k = cat then (k, v + 1) :: rest else (k, v) :: dictIncr rest cat

/-- One iteration of the `for dom in domains` loop of `classify_domains`
(lines 99-109), threading (`tracker_domains`, `category_counts`).
The `if matched_category:` guard on line 107 is a Python truthiness test:
it skips both an unmatched domain (`matched_category` still `None`) and a
matched domain whose first matching entry has the empty string as its
category. -/
def classifyStep (patterns : List (String × String))
    (acc : List (String × String) × List (String × ℕ)) (dom : String) :
    List (String × String) × List (String × ℕ) :=
  match firstTrackerMatch patterns dom with
  | some pc =>
    if pc.2 = "" then acc
    else (acc.1 ++ [(dom, pc.2)], dictIncr acc.2 pc.2)
  | none => acc

/-- Whether the `if matched_category:` truthiness test of line 107 passes
for a domain: some entry matches and the first matching entry in list order
has a non-empty category. -/
def domIsTracked (patterns : List (String × String)) (dom : String) : Bool :=
  match firstTrackerMatch patterns dom with
  | some pc => !(pc.2 == "")
  | none => false

/-- Lexicographic code-point order on char lists (Python string `<=`). -/
def charListLe : List Char → List Char → Bool
  | [], _ => true
  | _ :: _, [] => false
  | a :: as, b :: bs => if a < b then true else if a == b then charListLe as bs else false

def insertSorted (s : String) : List String → List String
  | [] => [s]
  | x :: xs => if charListLe s.toList x.toList then s :: x :: xs else x :: insertSorted s xs

/-- Python `sorted(domains)`. -/
def sortedStrings (l : List String) : List String := l.foldr insertSorted []

/-- The summary dict returned by `classify_domains`. -/
structure TrackerResult where
  all_domains : List String
  tracker_domains : List (String × String)
  num_domains : ℕ
  num_trackers : ℕ
  category_counts : List (String × ℕ)
  risk_level : String
deriving DecidableEq

/-- `classify_domains` of `tracker_analysis.py` (lines 95-130), with the
tracker list passed explicitly (the source reads the module-level
`TRACKER_PATTERNS`); the input set of domains is embedded as a
duplicate-free list. -/
def classify_domains (patterns : List (String × String)) (domains : List String) :
    TrackerResult :=
  let acc := domains.foldl (classifyStep patterns) ([], [])
  let tracker_domains := acc.1
  let category_counts := acc.2
  let num_trackers := tracker_domains.length
  let num_domains := domains.length
  let risk_level :=
    if num_trackers = 0 then "LOW"
    else if num_trackers ≤ 3 then "MEDIUM"
    else if num_trackers ≤ 10 then "MEDIUM"
    else "HIGH"
  { all_domains := sortedStrings domains, tracker_domains := tracker_domains,
    num_domains := num_domains, num_trackers := num_trackers,
    category_counts := category_counts, risk_level := risk_level }

/-- Sum of the values of a `category_counts` dict. -/
def valSum (l : List (String × ℕ)) : ℕ := (l.map Prod.snd).sum

/-- A 60-character policy text with no keyword occurrences. -/
def policyText60x : String :=
  "xxxxxxxxxxxxxxxxxxxxxxxxxxxxxxxxxxxxxxxxxxxxxxxxxxxxxxxxxxxx"

/-! ## Helper lemmas -/

theorem leadsWith_iff (p l : List Char) :
    leadsWith p l = true ↔ ∃ t, l = p ++ t := by
  induction p generalizing l with
  | nil => simp [leadsWith]
  | cons a p ih =>
    cases l with
    | nil => simp [leadsWith]
    | cons b l' =>
      simp only [leadsWith, Bool.and_eq_true, beq_iff_eq, ih, List.cons_append,
        List.cons.injEq]
      constructor
      · rintro ⟨rfl, t, rfl⟩
        exact ⟨t, rfl, rfl⟩
      · rintro ⟨t, rfl, rfl⟩
        exact ⟨rfl, t, rfl⟩

theorem hasSub_iff (p l : List Char) :
    hasSub p l = true ↔ ∃ s t, l = s ++ p ++ t := by
  induction l with
  | nil =>
    simp only [hasSub, leadsWith_iff]
    constructor
    · rintro ⟨t, ht⟩
      obtain ⟨rfl, rfl⟩ := (List.append_eq_nil).mp ht.symm
      exact ⟨[], [], rfl⟩
    · rintro ⟨s, t, ht⟩
      rw [List.append_assoc] at ht
      obtain ⟨rfl, h2⟩ := (List.append_eq_nil).mp ht.symm
      obtain ⟨rfl, rfl⟩ := (List.append_eq_nil).mp h2
      exact ⟨[], rfl⟩
  | cons c l' ih =>
    simp only [hasSub, Bool.or_eq_true, leadsWith_iff, ih]
    constructor
    · rintro (⟨t, ht⟩ | ⟨s, t, ht⟩)
      · exact ⟨[], t, by simpa using ht⟩
      · exact ⟨c :: s, t, by simp [ht]⟩
    · rintro ⟨s, t, ht⟩
      cases s with
      | nil => exact Or.inl ⟨t, by simpa using ht⟩
      | cons d s' =>
        simp only [List.cons_append, List.cons.injEq] at ht
        exact Or.inr ⟨s', t, by simp [ht.2]⟩

theorem any_congr_perm {α : Type} (f : α → Bool) {l l' : List α}
    (h : l.Perm l') : l.any f = l'.any f := by
  cases hl : l'.any f with
  | false =>
    rw [List.any_eq_false] at hl ⊢
    intro x hx
    exact hl x (h.mem_iff.mp hx)
  | true =>
    rw [List.any_eq_true] at hl ⊢
    obtain ⟨x, hx, hp⟩ := hl
    exact ⟨x, h.mem_iff.mpr hx, hp⟩

theorem addPenalty_rp (a : RiskAcc) (w : ℤ) (m : String) :
    (addPenalty a w m).rp = a.rp + w := rfl

theorem breadthStep_rp_bound (n : ℕ) (a : RiskAcc) :
    a.rp ≤ (breadthStep n a).rp ∧ (breadthStep n a).rp ≤ a.rp + 20 := by
  unfold breadthStep
  split_ifs <;> first
  | (simp only [addPenalty_rp]; omega)
  | omega

theorem checkStep_rp_bound (u c : Bool) (lab : String) (w : ℤ) (a : RiskAcc)
    (hw : 0 ≤ w) :
    a.rp ≤ (checkStep u c lab w a).rp ∧ (checkStep u c lab w a).rp ≤ a.rp + w := by
  unfold checkStep
  split <;> first
  | (simp only [addPenalty_rp]; omega)
  | omega

theorem flagStep_rp_bound (b : Bool) (w : ℤ) (m : String) (a : RiskAcc)
    (hw : 0 ≤ w) :
    a.rp ≤ (flagStep b w m a).rp ∧ (flagStep b w m a).rp ≤ a.rp + w := by
  unfold flagStep
  split <;> first
  | (simp only [addPenalty_rp]; omega)
  | omega

theorem riskAcc_rp_bounds (g : UsedGroups) (c : ClaimSet) :
    0 ≤ (riskAcc g c).rp ∧ (riskAcc g c).rp ≤ 99 := by
  set a0 : RiskAcc := ⟨0, []⟩ with ha0
  set a1 := breadthStep (numGroupsUsed g) a0 with ha1
  set a2 := checkStep g.location c.mentions_location "location data" 10 a1 with ha2
  set a3 := checkStep g.contacts c.mentions_contacts "contacts" 10 a2 with ha3
  set a4 := checkStep g.camera c.mentions_camera "camera" 10 a3 with ha4
  set a5 := checkStep g.microphone c.mentions_microphone "microphone/audio" 10 a4 with ha5
  set a6 := checkStep g.storage_media c.mentions_storage "media/storage" 7 a5 with ha6
  set a7 := checkStep g.phone c.mentions_phone "phone/call information" 7 a6 with ha7
  set a8 := checkStep g.ads_tracking c.mentions_ads_tracking "advertising IDs / tracking" 7 a7 with ha8
  set a9 := flagStep g.ads_tracking 5 adsBonusMsg a8 with ha9
  set a10 := flagStep (!c.mentions_third_parties) 8 thirdPartiesMsg a9 with ha10
  set a11 := flagStep (!c.mentions_security) 5 securityMsg a10 with ha11
  have key : riskAcc g c = a11 := rfl
  rw [key]
  have h0 : a0.rp = 0 := rfl
  have h1 := breadthStep_rp_bound (numGroupsUsed g) a0
  have h2 := checkStep_rp_bound g.location c.mentions_location "location data" 10 a1 (by norm_num)
  have h3 := checkStep_rp_bound g.contacts c.mentions_contacts "contacts" 10 a2 (by norm_num)
  have h4 := checkStep_rp_bound g.camera c.mentions_camera "camera" 10 a3 (by norm_num)
  have h5 := checkStep_rp_bound g.microphone c.mentions_microphone "microphone/audio" 10 a4 (by norm_num)
  have h6 := checkStep_rp_bound g.storage_media c.mentions_storage "media/storage" 7 a5 (by norm_num)
  have h7 := checkStep_rp_bound g.phone c.mentions_phone "phone/call information" 7 a6 (by norm_num)
  have h8 := checkStep_rp_bound g.ads_tracking c.mentions_ads_tracking "advertising IDs / tracking" 7 a7 (by norm_num)
  have h9 := flagStep_rp_bound g.ads_tracking 5 adsBonusMsg a8 (by norm_num)
  have h10 := flagStep_rp_bound (!c.mentions_third_parties) 8 thirdPartiesMsg a9 (by norm_num)
  have h11 := flagStep_rp_bound (!c.mentions_security) 5 securityMsg a10 (by norm_num)
  rw [← ha1] at h1
  rw [← ha2] at h2
  rw [← ha3] at h3
  rw [← ha4] at h4
  rw [← ha5] at h5
  rw [← ha6] at h6
  rw [← ha7] at h7
  rw [← ha8] at h8
  rw [← ha9] at h9
  rw [← ha10] at h10
  rw [← ha11] at h11
  omega

theorem mainRisk_score_eq (backend : ZeroShotBackend) (permissions : List String)
    (policy_text : String) :
    (mainRisk backend permissions policy_text).score =
      max 0 (100 -
        (if 90 < (riskAcc (group_permissions permissions)
                    (extract_policy_claims backend policy_text)).rp then 90
         else (riskAcc (group_permissions permissions)
                 (extract_policy_claims backend policy_text)).rp)) := rfl

theorem mainRisk_level_eq (backend : ZeroShotBackend) (permissions : List String)
    (policy_text : String) :
    (mainRisk backend permissions policy_text).level =
      levelOfScore (mainRisk backend permissions policy_text).score := rfl

theorem mainRisk_score_sub (backend : ZeroShotBackend) (permissions : List String)
    (policy_text : String) :
    ∃ rp : ℤ, 0 ≤ rp ∧ rp ≤ 90 ∧
      (mainRisk backend permissions policy_text).score = 100 - rp := by
  have h := riskAcc_rp_bounds (group_permissions permissions)
    (extract_policy_claims backend policy_text)
  rw [mainRisk_score_eq]
  by_cases h90 : 90 < (riskAcc (group_permissions permissions)
      (extract_policy_claims backend policy_text)).rp
  · refine ⟨90, by norm_num, le_refl _, ?_⟩
    rw [if_pos h90, max_eq_right (by norm_num : (0:ℤ) ≤ 100 - 90)]
  · refine ⟨(riskAcc (group_permissions permissions)
      (extract_policy_claims backend policy_text)).rp, h.1, by omega, ?_⟩
    rw [if_neg h90, max_eq_right (by omega)]

theorem mainRisk_score_bounds (backend : ZeroShotBackend) (permissions : List String)
    (policy_text : String) :
    10 ≤ (mainRisk backend permissions policy_text).score ∧
    (mainRisk backend permissions policy_text).score ≤ 100 := by
  obtain ⟨rp, h0, h90, he⟩ := mainRisk_score_sub backend permissions policy_text
  omega

/-! ## Claim theorems -/

/-- C1: for every permissions list and every policy text that is empty or
whose stripped length is below 50 characters, `compute_privacy_risk`
short-circuits and returns exactly score 25, level HIGH, the fixed
insufficiency reason, empty claims and `group_permissions` of the
permissions, regardless of the permissions and of the backend. -/
theorem compute_privacy_risk_short_circuit (backend : ZeroShotBackend)
    (permissions : List String) (policy_text : String)
    (h : policy_text = "" ∨ (pyStrip policy_text.toList).length < 50) :
    compute_privacy_risk backend permissions policy_text =
      { score := 25, level := "HIGH", reasons := [insufficientPolicyMsg],
        claims := none, used_groups := group_permissions permissions } := by
  unfold compute_privacy_risk
  rw [if_pos h]

/-- Witness for C1: the empty policy text at a concrete permission list. -/
theorem compute_privacy_risk_short_circuit_witness :
    (("" : String) = "" ∨ (pyStrip ("" : String).toList).length < 50) ∧
    compute_privacy_risk (fun _ => none) ["android.permission.CAMERA"] "" =
      { score := 25, level := "HIGH", reasons := [insufficientPolicyMsg],
        claims := none,
        used_groups := group_permissions ["android.permission.CAMERA"] } :=
  ⟨Or.inl rfl,
    compute_privacy_risk_short_circuit (fun _ => none)
      ["android.permission.CAMERA"] "" (Or.inl rfl)⟩

/-- C2: the returned level is the deterministic threshold function of the
returned score (75 and above LOW, 50 to 74 MEDIUM, below 50 HIGH), on every
input, and the threshold function takes the claimed values at 75, 74, 50
and 49. -/
theorem compute_privacy_risk_level_thresholds (backend : ZeroShotBackend)
    (permissions : List String) (policy_text : String) :
    ((compute_privacy_risk backend permissions policy_text).level =
      levelOfScore (compute_privacy_risk backend permissions policy_text).score) ∧
    levelOfScore 75 = "LOW" ∧ levelOfScore 74 = "MEDIUM" ∧
    levelOfScore 50 = "MEDIUM" ∧ levelOfScore 49 = "HIGH" := by
  refine ⟨?_, by decide, by decide, by decide, by decide⟩
  unfold compute_privacy_risk
  split
  · show "HIGH" = levelOfScore 25
    decide
  · exact mainRisk_level_eq backend permissions policy_text

/-- C3: on every input, the clamped risk points (100 minus the returned
score, before the floor clamp) stay at most 90, and the returned score lies
in the interval from 0 to 100. -/
theorem compute_privacy_risk_score_range (backend : ZeroShotBackend)
    (permissions : List String) (policy_text : String) :
    100 - (compute_privacy_risk backend permissions policy_text).score ≤ 90 ∧
    0 ≤ (compute_privacy_risk backend permissions policy_text).score ∧
    (compute_privacy_risk backend permissions policy_text).score ≤ 100 := by
  unfold compute_privacy_risk
  split
  · norm_num
  · have h := mainRisk_score_bounds backend permissions policy_text
    omega

/-- C4: for the single CAMERA permission and a 60-character policy text with
no keyword occurrences, scored under the keyword strategy (failing backend),
the camera group is used, the camera-mismatch reason and the third-parties
and security penalty reasons appear, the third-parties and security claims
are false, and the final score is 72 with level MEDIUM. -/
theorem compute_privacy_risk_camera_example :
    (compute_privacy_risk (fun _ => none) ["android.permission.CAMERA"]
      policyText60x).used_groups.camera = true ∧
    mismatchMsg "camera" ∈ (compute_privacy_risk (fun _ => none)
      ["android.permission.CAMERA"] policyText60x).reasons ∧
    thirdPartiesMsg ∈ (compute_privacy_risk (fun _ => none)
      ["android.permission.CAMERA"] policyText60x).reasons ∧
    securityMsg ∈ (compute_privacy_risk (fun _ => none)
      ["android.permission.CAMERA"] policyText60x).reasons ∧
    (compute_privacy_risk (fun _ => none) ["android.permission.CAMERA"]
      policyText60x).claims = some (keyword_extract_claims policyText60x) ∧
    (keyword_extract_claims policyText60x).mentions_third_parties = false ∧
    (keyword_extract_claims policyText60x).mentions_security = false ∧
    (compute_privacy_risk (fun _ => none) ["android.permission.CAMERA"]
      policyText60x).score = 72 ∧
    (compute_privacy_risk (fun _ => none) ["android.permission.CAMERA"]
      policyText60x).level = "MEDIUM" := by
  decide

/-- C10: when the stripped policy text has at least 50 characters, the
returned score is at least 10 (the clamped risk points are at most 90, so
the score is exactly 100 minus them and the floor clamp at 0 never binds),
and over all inputs the score is either the short-circuit 25 or lies in the
interval from 10 to 100. -/
theorem compute_privacy_risk_score_floor (backend : ZeroShotBackend)
    (permissions : List String) (policy_text : String)
    (h : 50 ≤ (pyStrip policy_text.toList).length) :
    10 ≤ (compute_privacy_risk backend permissions policy_text).score ∧
    (compute_privacy_risk backend permissions policy_text).score ≤ 100 ∧
    (∃ rp : ℤ, 0 ≤ rp ∧ rp ≤ 90 ∧
      (compute_privacy_risk backend permissions policy_text).score = 100 - rp) ∧
    (∀ (b : ZeroShotBackend) (p : List String) (t : String),
      (compute_privacy_risk b p t).score = 25 ∨
      (10 ≤ (compute_privacy_risk b p t).score ∧
        (compute_privacy_risk b p t).score ≤ 100)) := by
  have hcond : ¬(policy_text = "" ∨ (pyStrip policy_text.toList).length < 50) := by
    rintro (rfl | hlt)
    · exact absurd h (by decide)
    · omega
  have hmain : compute_privacy_risk backend permissions policy_text =
      mainRisk backend permissions policy_text := by
    unfold compute_privacy_risk
    rw [if_neg hcond]
  have hb := mainRisk_score_bounds backend permissions policy_text
  have hs := mainRisk_score_sub backend permissions policy_text
  rw [hmain]
  refine ⟨hb.1, hb.2, hs, ?_⟩
  intro b p t
  unfold compute_privacy_risk
  split
  · exact Or.inl rfl
  · exact Or.inr (mainRisk_score_bounds b p t)

/-- Witness for C10: the 60-character keyword-free policy text. -/
theorem compute_privacy_risk_score_floor_witness :
    50 ≤ (pyStrip policyText60x.toList).length ∧
    (10 ≤ (compute_privacy_risk (fun _ => none) ["android.permission.CAMERA"]
      policyText60x).score ∧
    (compute_privacy_risk (fun _ => none) ["android.permission.CAMERA"]
      policyText60x).score ≤ 100 ∧
    (∃ rp : ℤ, 0 ≤ rp ∧ rp ≤ 90 ∧
      (compute_privacy_risk (fun _ => none) ["android.permission.CAMERA"]
        policyText60x).score = 100 - rp) ∧
    (∀ (b : ZeroShotBackend) (p : List String) (t : String),
      (compute_privacy_risk b p t).score = 25 ∨
      (10 ≤ (compute_privacy_risk b p t).score ∧
        (compute_privacy_risk b p t).score ≤ 100))) :=
  ⟨by decide,
    compute_privacy_risk_score_floor (fun _ => none)
      ["android.permission.CAMERA"] policyText60x (by decide)⟩

theorem foldl_groupStep_any (l : List String) (init : UsedGroups) :
    l.foldl groupStep init =
      ⟨init.location || l.any (fun p => permInGroup p locationSuffixes),
       init.contacts || l.any (fun p => permInGroup p contactsSuffixes),
       init.camera || l.any (fun p => permInGroup p cameraSuffixes),
       init.microphone || l.any (fun p => permInGroup p microphoneSuffixes),
       init.storage_media || l.any (fun p => permInGroup p storageMediaSuffixes),
       init.phone || l.any (fun p => permInGroup p phoneSuffixes),
       init.ads_tracking || l.any (fun p => permInGroup p adsTrackingSuffixes)⟩ := by
  induction l generalizing init with
  | nil => simp
  | cons p t ih =>
    rw [List.foldl_cons, ih]
    simp [groupStep, Bool.or_assoc]

theorem group_permissions_any (l : List String) :
    group_permissions l =
      ⟨l.any (fun p => permInGroup p locationSuffixes),
       l.any (fun p => permInGroup p contactsSuffixes),
       l.any (fun p => permInGroup p cameraSuffixes),
       l.any (fun p => permInGroup p microphoneSuffixes),
       l.any (fun p => permInGroup p storageMediaSuffixes),
       l.any (fun p => permInGroup p phoneSuffixes),
       l.any (fun p => permInGroup p adsTrackingSuffixes)⟩ := by
  rw [group_permissions, foldl_groupStep_any]
  simp

/-- C7: `group_permissions` is order-independent (permuting the input list
leaves the mapping unchanged), deterministic (re-running on the same input
gives the same mapping), and a permission matching none of the registered
group suffix lists leaves the mapping unchanged rather than being
rejected. -/
theorem group_permissions_order_free :
    (∀ (l l' : List String), l.Perm l' →
      group_permissions l = group_permissions l') ∧
    (∀ l : List String, group_permissions l = group_permissions l) ∧
    (∀ (perm : String) (l : List String),
      (∀ pats ∈ groupSuffixLists, permInGroup perm pats = false) →
      group_permissions (perm :: l) = group_permissions l) := by
  refine ⟨?_, fun _ => rfl, ?_⟩
  · intro l l' hp
    rw [group_permissions_any, group_permissions_any]
    rw [any_congr_perm _ hp, any_congr_perm _ hp, any_congr_perm _ hp,
      any_congr_perm _ hp, any_congr_perm _ hp, any_congr_perm _ hp,
      any_congr_perm _ hp]
  · intro perm l h
    have h1 := h locationSuffixes (by simp [groupSuffixLists])
    have h2 := h contactsSuffixes (by simp [groupSuffixLists])
    have h3 := h cameraSuffixes (by simp [groupSuffixLists])
    have h4 := h microphoneSuffixes (by simp [groupSuffixLists])
    have h5 := h storageMediaSuffixes (by simp [groupSuffixLists])
    have h6 := h phoneSuffixes (by simp [groupSuffixLists])
    have h7 := h adsTrackingSuffixes (by simp [groupSuffixLists])
    rw [group_permissions_any, group_permissions_any]
    simp [List.any_cons, h1, h2, h3, h4, h5, h6, h7]

/-- C8: any failure of the zero-shot backend (modelled as `none`, covering
both initialization and runtime errors, which the source catches) makes
`extract_policy_claims` fall back to the keyword strategy; the result of a
call is always entirely from one strategy, never a mix; and text whose
stripped length is below 20 characters always goes through the keyword
strategy. The embedded function is total, so no exception escapes. -/
theorem extract_policy_claims_fallback :
    (∀ (backend : ZeroShotBackend) (text : String),
      extract_policy_claims (fun _ => none) text = keyword_extract_claims text ∧
      (backend text = none →
        extract_policy_claims backend text = keyword_extract_claims text)) ∧
    (∀ (backend : ZeroShotBackend) (text : String),
      extract_policy_claims backend text = keyword_extract_claims text ∨
      ∃ res, backend text = some res ∧
        extract_policy_claims backend text = zeroShotClaims res) ∧
    (∀ (backend : ZeroShotBackend) (text : String),
      text = "" ∨ (pyStrip text.toList).length < 20 →
      extract_policy_claims backend text = keyword_extract_claims text) := by
  refine ⟨?_, ?_, ?_⟩
  · intro backend text
    constructor
    · unfold extract_policy_claims
      split
      · rfl
      · rfl
    · intro hb
      unfold extract_policy_claims
      split
      · rfl
      · rw [hb]
  · intro backend text
    unfold extract_policy_claims
    split
    · exact Or.inl rfl
    · cases hb : backend text with
      | none => exact Or.inl rfl
      | some res => exact Or.inr ⟨res, rfl, rfl⟩
  · intro backend text h
    unfold extract_policy_claims
    rw [if_pos h]

theorem valSum_dictIncr (l : List (String × ℕ)) (cat : String) :
    valSum (dictIncr l cat) = valSum l + 1 := by
  induction l with
  | nil => simp [dictIncr, valSum]
  | cons kv rest ih =>
    obtain ⟨k, v⟩ := kv
    unfold dictIncr
    split
    · simp [valSum]
      omega
    · simp only [valSum, List.map_cons, List.sum_cons] at ih ⊢
      omega

theorem find_eq_some_split {α : Type} (p : α → Bool) (l : List α) (a : α)
    (h : l.find? p = some a) :
    ∃ s t, l = s ++ a :: t ∧ p a = true ∧ ∀ x ∈ s, p x = false := by
  induction l with
  | nil => simp at h
  | cons b l' ih =>
    by_cases hb : p b = true
    · rw [List.find?_cons_of_pos _ hb] at h
      injection h with h
      subst h
      exact ⟨[], l', rfl, hb, by simp⟩
    · rw [List.find?_cons_of_neg _ (by simpa using hb)] at h
      obtain ⟨s, t, rfl, hp, hall⟩ := ih h
      refine ⟨b :: s, t, rfl, hp, ?_⟩
      intro x hx
      rcases List.mem_cons.mp hx with rfl | hx
      · simpa using hb
      · exact hall x hx

theorem classify_fold_keys (patterns : List (String × String))
    (domains : List String) (acc : List (String × String) × List (String × ℕ)) :
    ((domains.foldl (classifyStep patterns) acc).1.map Prod.fst =
      acc.1.map Prod.fst ++ domains.filter (domIsTracked patterns)) ∧
    valSum (domains.foldl (classifyStep patterns) acc).2 =
      valSum acc.2 + (domains.filter (domIsTracked patterns)).length := by
  induction domains generalizing acc with
  | nil => simp
  | cons d t ih =>
    rw [List.foldl_cons]
    cases hm : firstTrackerMatch patterns d with
    | none =>
      have hstep : classifyStep patterns acc d = acc := by
        unfold classifyStep
        rw [hm]
      have hfil : domIsTracked patterns d = false := by
        unfold domIsTracked
        rw [hm]
      rw [hstep, List.filter_cons_of_neg (by simp [hfil])]
      exact ih acc
    | some pc =>
      by_cases hc : pc.2 = ""
      · have hstep : classifyStep patterns acc d = acc := by
          unfold classifyStep
          rw [hm]
          simp [hc]
        have hfil : domIsTracked patterns d = false := by
          unfold domIsTracked
          rw [hm]
          simp [hc]
        rw [hstep, List.filter_cons_of_neg (by simp [hfil])]
        exact ih acc
      · have hstep : classifyStep patterns acc d =
            (acc.1 ++ [(d, pc.2)], dictIncr acc.2 pc.2) := by
          unfold classifyStep
          rw [hm]
          simp [hc]
        have hfil : domIsTracked patterns d = true := by
          unfold domIsTracked
          rw [hm]
          simp [hc]
        rw [hstep, List.filter_cons_of_pos (by simp [hfil])]
        obtain ⟨ihk, ihv⟩ := ih (acc.1 ++ [(d, pc.2)], dictIncr acc.2 pc.2)
        constructor
        · rw [ihk]
          simp
        · rw [ihv, valSum_dictIncr]
          simp only [List.length_cons]
          omega

theorem classify_fold_mem (patterns : List (String × String))
    (domains : List String) (acc : List (String × String) × List (String × ℕ))
    (p : String × String) :
    p ∈ (domains.foldl (classifyStep patterns) acc).1 ↔
      p ∈ acc.1 ∨ ∃ d pc, d ∈ domains ∧
        firstTrackerMatch patterns d = some pc ∧ pc.2 ≠ "" ∧ p = (d, pc.2) := by
  induction domains generalizing acc with
  | nil => simp
  | cons d t ih =>
    rw [List.foldl_cons]
    cases hm : firstTrackerMatch patterns d with
    | none =>
      have hstep : classifyStep patterns acc d = acc := by
        unfold classifyStep
        rw [hm]
      rw [hstep, ih]
      constructor
      · rintro (h | ⟨d', pc, hd', hf, hne, rfl⟩)
        · exact Or.inl h
        · exact Or.inr ⟨d', pc, List.mem_cons_of_mem _ hd', hf, hne, rfl⟩
      · rintro (h | ⟨d', pc, hd', hf, hne, rfl⟩)
        · exact Or.inl h
        · rcases List.mem_cons.mp hd' with rfl | hd'
          · rw [hm] at hf
            cases hf
          · exact Or.inr ⟨d', pc, hd', hf, hne, rfl⟩
    | some pc =>
      by_cases hc : pc.2 = ""
      · have hstep : classifyStep patterns acc d = acc := by
          unfold classifyStep
          rw [hm]
          simp [hc]
        rw [hstep, ih]
        constructor
        · rintro (h | ⟨d', pc', hd', hf, hne, rfl⟩)
          · exact Or.inl h
          · exact Or.inr ⟨d', pc', List.mem_cons_of_mem _ hd', hf, hne, rfl⟩
        · rintro (h | ⟨d', pc', hd', hf, hne, rfl⟩)
          · exact Or.inl h
          · rcases List.mem_cons.mp hd' with rfl | hd'
            · rw [hm] at hf
              injection hf with hf
              subst hf
              exact absurd hc hne
            · exact Or.inr ⟨d', pc', hd', hf, hne, rfl⟩
      · have hstep : classifyStep patterns acc d =
            (acc.1 ++ [(d, pc.2)], dictIncr acc.2 pc.2) := by
          unfold classifyStep
          rw [hm]
          simp [hc]
        rw [hstep, ih]
        simp only [List.mem_append, List.mem_singleton]
        constructor
        · rintro ((h | rfl) | ⟨d', pc', hd', hf, hne, rfl⟩)
          · exact Or.inl h
          · exact Or.inr ⟨d, pc, List.mem_cons_self d t, hm, hc, rfl⟩
          · exact Or.inr ⟨d', pc', List.mem_cons_of_mem _ hd', hf, hne, rfl⟩
        · rintro (h | ⟨d', pc', hd', hf, hne, rfl⟩)
          · exact Or.inl (Or.inl h)
          · rcases List.mem_cons.mp hd' with rfl | hd'
            · rw [hm] at hf
              injection hf with hf
              subst hf
              exact Or.inl (Or.inr rfl)
            · exact Or.inr ⟨d', pc', hd', hf, hne, rfl⟩

/-- C5: the risk level of `classify_domains` is a function of the tracker
count alone (0 LOW, 1 to 10 MEDIUM, above 10 HIGH), and on the domain set
containing `example.com` and `ads.doubleclick.net` under the built-in
fallback tracker list, exactly one tracker (`ads.doubleclick.net`, category
`ads`) is found and the risk level is MEDIUM. -/
theorem classify_domains_risk_level :
    (∀ (patterns : List (String × String)) (domains : List String),
      (classify_domains patterns domains).risk_level =
        (if (classify_domains patterns domains).num_trackers = 0 then "LOW"
         else if (classify_domains patterns domains).num_trackers ≤ 10 then "MEDIUM"
         else "HIGH")) ∧
    (classify_domains FALLBACK_TRACKERS
      ["ads.doubleclick.net", "example.com"]).num_trackers = 1 ∧
    (classify_domains FALLBACK_TRACKERS
      ["ads.doubleclick.net", "example.com"]).tracker_domains =
      [("ads.doubleclick.net", "ads")] ∧
    (classify_domains FALLBACK_TRACKERS
      ["ads.doubleclick.net", "example.com"]).risk_level = "MEDIUM" := by
  refine ⟨?_, by decide, by decide, by decide⟩
  intro patterns domains
  simp only [classify_domains]
  split_ifs <;> first | rfl | omega

theorem find_eq_some_of_split {α : Type} (p : α → Bool) (pre post : List α)
    (a : α) (ha : p a = true) (hpre : ∀ x ∈ pre, p x = false) :
    (pre ++ a :: post).find? p = some a := by
  induction pre with
  | nil => simp [List.find?_cons_of_pos _ ha]
  | cons b pre ih =>
    rw [List.cons_append,
      List.find?_cons_of_neg _ (by simp [hpre b (List.mem_cons_self b pre)])]
    exact ih (fun x hx => hpre x (List.mem_cons_of_mem _ hx))

/-- C6 counterexample: under the tracker list `[("net", "")]` the program
does not classify `example.net` — the `if matched_category:` truthiness test
of `tracker_analysis.py:107` skips the matched entry because its category is
the empty string — even though the pattern `net` occurs as a substring of
the domain, so the claimed iff fails as stated. -/
theorem classify_domains_match_rule_counterexample :
    (classify_domains [("net", "")] ["example.net"]).tracker_domains = [] ∧
    (classify_domains [("net", "")] ["example.net"]).num_trackers = 0 ∧
    (classify_domains [("net", "")] ["example.net"]).risk_level = "LOW" ∧
    (¬ ∃ cat, ("example.net", cat) ∈
      (classify_domains [("net", "")] ["example.net"]).tracker_domains) ∧
    (∃ pc ∈ ([("net", "")] : List (String × String)), ∃ s t,
      ("example.net" : String).toList = s ++ pc.1.toList ++ t) := by
  refine ⟨by decide, by decide, by decide, ?_, ?_⟩
  · rintro ⟨cat, hc⟩
    have he : (classify_domains [("net", "")] ["example.net"]).tracker_domains
        = [] := by decide
    rw [he] at hc
    simp at hc
  · exact ⟨("net", ""), by decide, ("example." : String).toList, [], by decide⟩

/-- C6 (amended): `classify_domains` classifies a domain as a tracker iff
the first entry (in list order) whose pattern occurs as a contiguous
substring anywhere in the domain string exists and carries a non-empty
category — the `if matched_category:` truthiness test skips a first match
whose category is the empty string; that first matching entry determines
the category; and no domain is mapped to more than one category. -/
theorem classify_domains_match_rule_amended (patterns : List (String × String))
    (domains : List String) (dom : String) (_hnd : domains.Nodup)
    (hdom : dom ∈ domains) :
    ((∃ cat, (dom, cat) ∈ (classify_domains patterns domains).tracker_domains) ↔
      ∃ pre pc post, patterns = pre ++ pc :: post ∧
        (∃ s t, dom.toList = s ++ pc.1.toList ++ t) ∧
        (∀ qc ∈ pre, ¬ ∃ s t, dom.toList = s ++ qc.1.toList ++ t) ∧
        pc.2 ≠ "") ∧
    (∀ cat, (dom, cat) ∈ (classify_domains patterns domains).tracker_domains →
      ∃ pre pc post, patterns = pre ++ pc :: post ∧
        hasSub pc.1.toList dom.toList = true ∧
        (∀ qc ∈ pre, hasSub qc.1.toList dom.toList = false) ∧ cat = pc.2) ∧
    (∀ cat1 cat2,
      (dom, cat1) ∈ (classify_domains patterns domains).tracker_domains →
      (dom, cat2) ∈ (classify_domains patterns domains).tracker_domains →
      cat1 = cat2) := by
  have hmem : ∀ cat,
      (dom, cat) ∈ (classify_domains patterns domains).tracker_domains ↔
        ∃ pc, firstTrackerMatch patterns dom = some pc ∧ pc.2 ≠ "" ∧
          cat = pc.2 := by
    intro cat
    simp only [classify_domains]
    rw [classify_fold_mem]
    constructor
    · rintro (h | ⟨d, pc, hd, hf, hne, heq⟩)
      · simp at h
      · rw [Prod.mk.injEq] at heq
        obtain ⟨h1, h2⟩ := heq
        subst h1
        exact ⟨pc, hf, hne, h2⟩
    · rintro ⟨pc, hf, hne, rfl⟩
      exact Or.inr ⟨dom, pc, hdom, hf, hne, rfl⟩
  refine ⟨?_, ?_, ?_⟩
  · constructor
    · rintro ⟨cat, hc⟩
      obtain ⟨pc, hf, hne, _⟩ := (hmem cat).mp hc
      unfold firstTrackerMatch at hf
      obtain ⟨pre, post, hsplit, hp, hall⟩ := find_eq_some_split _ _ _ hf
      refine ⟨pre, pc, post, hsplit,
        (hasSub_iff _ _).mp (by simpa using hp), ?_, hne⟩
      intro qc hqc hex
      have h1 : hasSub qc.1.toList dom.toList = false := by
        simpa using hall qc hqc
      have h2 : hasSub qc.1.toList dom.toList = true :=
        (hasSub_iff _ _).mpr hex
      rw [h1] at h2
      cases h2
    · rintro ⟨pre, pc, post, hsplit, hex, hpre, hne⟩
      have hp : hasSub pc.1.toList dom.toList = true :=
        (hasSub_iff _ _).mpr hex
      have hfind : (pre ++ pc :: post).find?
          (fun qc => hasSub qc.1.toList dom.toList) = some pc := by
        refine find_eq_some_of_split _ pre post pc hp ?_
        intro x hx
        cases hcase : hasSub x.1.toList dom.toList with
        | false => rfl
        | true => exact absurd ((hasSub_iff _ _).mp hcase) (hpre x hx)
      refine ⟨pc.2, (hmem pc.2).mpr ⟨pc, ?_, hne, rfl⟩⟩
      unfold firstTrackerMatch
      rw [hsplit]
      exact hfind
  · intro cat hc
    obtain ⟨pc, hf, _, hcat⟩ := (hmem cat).mp hc
    unfold firstTrackerMatch at hf
    obtain ⟨pre, post, hsplit, hp, hall⟩ := find_eq_some_split _ _ _ hf
    refine ⟨pre, pc, post, hsplit, by simpa using hp, ?_, hcat⟩
    intro qc hqc
    simpa using hall qc hqc
  · intro cat1 cat2 h1 h2
    obtain ⟨pc1, hf1, _, e1⟩ := (hmem cat1).mp h1
    obtain ⟨pc2, hf2, _, e2⟩ := (hmem cat2).mp h2
    rw [hf1] at hf2
    injection hf2 with e
    rw [e1, e2, e]

/-- Witness for C6 (amended): `ads.doubleclick.net` in the concrete
two-domain set with the built-in fallback tracker list. -/
theorem classify_domains_match_rule_amended_witness :
    ((["ads.doubleclick.net", "example.com"] : List String).Nodup ∧
      "ads.doubleclick.net" ∈ (["ads.doubleclick.net", "example.com"] : List String)) ∧
    (((∃ cat, ("ads.doubleclick.net", cat) ∈ (classify_domains FALLBACK_TRACKERS
        ["ads.doubleclick.net", "example.com"]).tracker_domains) ↔
      ∃ pre pc post, FALLBACK_TRACKERS = pre ++ pc :: post ∧
        (∃ s t, ("ads.doubleclick.net" : String).toList = s ++ pc.1.toList ++ t) ∧
        (∀ qc ∈ pre, ¬ ∃ s t,
          ("ads.doubleclick.net" : String).toList = s ++ qc.1.toList ++ t) ∧
        pc.2 ≠ "") ∧
    (∀ cat, ("ads.doubleclick.net", cat) ∈ (classify_domains FALLBACK_TRACKERS
        ["ads.doubleclick.net", "example.com"]).tracker_domains →
      ∃ pre pc post, FALLBACK_TRACKERS = pre ++ pc :: post ∧
        hasSub pc.1.toList ("ads.doubleclick.net" : String).toList = true ∧
        (∀ qc ∈ pre,
          hasSub qc.1.toList ("ads.doubleclick.net" : String).toList = false) ∧
        cat = pc.2) ∧
    (∀ cat1 cat2,
      ("ads.doubleclick.net", cat1) ∈ (classify_domains FALLBACK_TRACKERS
        ["ads.doubleclick.net", "example.com"]).tracker_domains →
      ("ads.doubleclick.net", cat2) ∈ (classify_domains FALLBACK_TRACKERS
        ["ads.doubleclick.net", "example.com"]).tracker_domains →
      cat1 = cat2)) :=
  ⟨⟨by decide, by decide⟩,
    classify_domains_match_rule_amended FALLBACK_TRACKERS
      ["ads.doubleclick.net", "example.com"] "ads.doubleclick.net"
      (by decide) (by decide)⟩

/-- C9: structural invariants of `classify_domains` on a duplicate-free
domain list: `num_trackers` is the size of `tracker_domains` (whose keys
are duplicate-free), `num_domains` is the size of the input,
`num_trackers` is at most `num_domains`, every classified key comes from
the input, and the category counts sum to `num_trackers`. -/
theorem classify_domains_invariants (patterns : List (String × String))
    (domains : List String) (hnd : domains.Nodup) :
    (classify_domains patterns domains).num_trackers =
      (classify_domains patterns domains).tracker_domains.length ∧
    (classify_domains patterns domains).num_domains = domains.length ∧
    (classify_domains patterns domains).num_trackers ≤
      (classify_domains patterns domains).num_domains ∧
    (∀ p ∈ (classify_domains patterns domains).tracker_domains,
      p.1 ∈ domains) ∧
    valSum (classify_domains patterns domains).category_counts =
      (classify_domains patterns domains).num_trackers ∧
    ((classify_domains patterns domains).tracker_domains.map Prod.fst).Nodup := by
  obtain ⟨hk, hv⟩ := classify_fold_keys patterns domains ([], [])
  simp only [List.map_nil, List.nil_append] at hk
  have hv' : valSum (domains.foldl (classifyStep patterns) ([], [])).2 =
      (domains.filter (domIsTracked patterns)).length := by
    simpa [valSum] using hv
  have hlen : (domains.foldl (classifyStep patterns) ([], [])).1.length =
      (domains.filter (domIsTracked patterns)).length := by
    calc (domains.foldl (classifyStep patterns) ([], [])).1.length
        = ((domains.foldl (classifyStep patterns) ([], [])).1.map Prod.fst).length :=
          (List.length_map _ _).symm
      _ = _ := by rw [hk]
  simp only [classify_domains]
  refine ⟨trivial, trivial, ?_, ?_, ?_, ?_⟩
  · rw [hlen]
    exact List.length_filter_le _ _
  · intro p hp
    rw [classify_fold_mem] at hp
    rcases hp with hp | ⟨d, pc, hd, _, _, rfl⟩
    · simp at hp
    · exact hd
  · rw [hv', hlen]
  · rw [hk]
    exact hnd.filter _

/-- Witness for C9: the concrete two-domain set with the built-in fallback
tracker list. -/
theorem classify_domains_invariants_witness :
    (["ads.doubleclick.net", "example.com"] : List String).Nodup ∧
    ((classify_domains FALLBACK_TRACKERS
        ["ads.doubleclick.net", "example.com"]).num_trackers =
      (classify_domains FALLBACK_TRACKERS
        ["ads.doubleclick.net", "example.com"]).tracker_domains.length ∧
    (classify_domains FALLBACK_TRACKERS
        ["ads.doubleclick.net", "example.com"]).num_domains =
      (["ads.doubleclick.net", "example.com"] : List String).length ∧
    (classify_domains FALLBACK_TRACKERS
        ["ads.doubleclick.net", "example.com"]).num_trackers ≤
      (classify_domains FALLBACK_TRACKERS
        ["ads.doubleclick.net", "example.com"]).num_domains ∧
    (∀ p ∈ (classify_domains FALLBACK_TRACKERS
        ["ads.doubleclick.net", "example.com"]).tracker_domains,
      p.1 ∈ (["ads.doubleclick.net", "example.com"] : List String)) ∧
    valSum (classify_domains FALLBACK_TRACKERS
        ["ads.doubleclick.net", "example.com"]).category_counts =
      (classify_domains FALLBACK_TRACKERS
        ["ads.doubleclick.net", "example.com"]).num_trackers ∧
    ((classify_domains FALLBACK_TRACKERS
        ["ads.doubleclick.net", "example.com"]).tracker_domains.map
      Prod.fst).Nodup) :=
  ⟨by decide,
    classify_domains_invariants FALLBACK_TRACKERS
      ["ads.doubleclick.net", "example.com"] (by decide)⟩
